import Mathlib

set_option maxHeartbeats 1000000

/-!
Shallow embedding of the Python-analyzer backend: the lexer
(src/lexer/Lexer.go), the recursive-descent parser and the semantic
checker (src/semantico/semantic.go, which also carries the parser
package), and the HTTP handler composition (main.go, `analyzeCode`).

Conventions of the embedding:
- Source text is modelled as a `String`, split into lines on the newline
  character exactly as `strings.Split(code, "\n")` does; a line is a
  `List Char`.  The Go code indexes lines byte-wise; for the ASCII inputs
  this program targets the byte-wise and character-wise views coincide,
  and the character-class predicates below follow the ASCII behaviour of
  Go's `unicode` package.
- The parser in the Go source can fail to terminate (its top-level
  statement loop does not advance past a token it cannot parse) and can
  dereference a nil node pointer (in the binary-operator loops).  Both
  ways of not producing a result are modelled by fuel-indexed functions
  returning `none`.
- Go nil pointers (`*ASTNode`) are modelled with `Option ASTNode`.
-/

/-- Single-quote character (ASCII 39), kept out of string literals. -/
def sqChar : Char := Char.ofNat 39

/-- Double-quote character (ASCII 34). -/
def dqChar : Char := Char.ofNat 34

/-- Backslash character (ASCII 92). -/
def bsChar : Char := Char.ofNat 92

/-- Single-quote as a one-character string. -/
def sqStr : String := String.mk [sqChar]

/-- Wrap a string in single quotes, as the Go format strings do with '%s'. -/
def quoted (s : String) : String := sqStr ++ s ++ sqStr

/-- Token kinds, from the `TokenType` constants in Lexer.go. -/
inductive TokenType where
  | KEYWORD
  | IDENTIFIER
  | NUMBER
  | STRING
  | SYMBOL
  | WHITESPACE
  | NEWLINE
  | ERROR
deriving DecidableEq, Repr

/-- A lexical token (Lexer.go `Token`). -/
structure Token where
  type : TokenType
  value : String
  line : Nat
  column : Nat
deriving DecidableEq, Repr

/-- The zero value of Go's `lexer.Token`, returned by `peek`/`previous`
out of range. -/
def zeroToken : Token := ⟨.KEYWORD, "", 0, 0⟩

/-- Aggregate counters (Lexer.go `TokenStatistics`). -/
structure TokenStatistics where
  keywords : Nat
  identifiers : Nat
  numbers : Nat
  strings : Nat
  symbols : Nat
  errors : Nat
deriving DecidableEq, Repr

/-- Result of the lexical stage (Lexer.go `LexicalResult`); the Go
`Table` map with its five fixed keys is modelled by five lists. -/
structure LexicalResult where
  tokens : List Token
  tablePR : List String
  tableID : List String
  tableNumeros : List String
  tableSimbolos : List String
  tableError : List String
  statistics : TokenStatistics
  errors : List String
  reservedWords : Nat

/-- The fixed reserved-word set (Lexer.go `pythonKeywords`). -/
def pythonKeywords : List String :=
  ["def", "if", "else", "elif", "while",
   "for", "in", "try", "except", "finally",
   "with", "as", "pass", "break", "continue",
   "return", "yield", "import", "from", "class",
   "and", "or", "not", "is", "lambda",
   "None", "True", "False", "print"]

/-- The fixed symbol list in source order (Lexer.go `pythonSymbols`). -/
def pythonSymbols : List String :=
  ["==", "!=", "<=", ">=", ">>", "<<", "**", "//", "+=", "-=", "*=", "/=",
   "=", "+", "-", "*", "/", "%", "<", ">", "(", ")", "[", "]",
   String.mk [Char.ofNat 123], String.mk [Char.ofNat 125],
   ":", ";", ",", ".", "&", "|", "^", "~", "!", "@", "#", "$", "?"]

/-- `unicode.IsSpace` restricted to the ASCII range used by the scanner. -/
def goIsSpace (c : Char) : Bool :=
  c = ' ' || c = '\t' || c = '\n' || c = '\x0b' || c = '\x0c' || c = '\r'

/-- `unicode.IsDigit` on ASCII. -/
def goIsDigit (c : Char) : Bool := c.isDigit

/-- `unicode.IsLetter` on ASCII. -/
def goIsLetter (c : Char) : Bool := c.isAlpha

/-- Scan for the closing quote as the loop in `processString` does:
returns the number of characters standing before the closing quote in
the text after the opening quote, or `none` when the line ends first.
A backslash consumes the following character. -/
def stringEnd (quote : Char) : List Char → Option Nat
  | [] => none
  | c :: rest =>
    if c = quote then some 0
    else if c = bsChar then
      match rest with
      | [] => none
      | _ :: rest2 =>
        match stringEnd quote rest2 with
        | none => none
        | some j => some (j + 2)
    else
      match stringEnd quote rest with
      | none => none
      | some j => some (j + 1)

/-- Lexer.go `processString`: `text` starts at the opening quote. -/
def processString (text : List Char) (line column : Nat) (quote : Char) :
    Token × Nat :=
  match stringEnd quote (text.drop 1) with
  | none => (⟨.ERROR, String.mk text, line, column⟩, text.length)
  | some j => (⟨.STRING, String.mk (text.take (j + 2)), line, column⟩, j + 2)

/-- The consuming loop of `processNumber`: a maximal run of digits with
at most one dot; a second dot stops consumption. -/
def numLen : List Char → Bool → Nat
  | [], _ => 0
  | c :: rest, hasDecimal =>
    if goIsDigit c || c = '.' then
      if c = '.' then
        if hasDecimal then 0 else 1 + numLen rest true
      else 1 + numLen rest hasDecimal
    else 0

/-- Lexer.go `processNumber`. -/
def processNumber (text : List Char) (line column : Nat) : Token × Nat :=
  let i := numLen text false
  (⟨.NUMBER, String.mk (text.take i), line, column⟩, i)

/-- The consuming loop of `processIdentifier`: letters, digits and
underscores. -/
def identLen : List Char → Nat
  | [] => 0
  | c :: rest =>
    if goIsLetter c || goIsDigit c || c = '_' then 1 + identLen rest else 0

/-- Lexer.go `processIdentifier`: keyword lookup decides the kind. -/
def processIdentifier (text : List Char) (line column : Nat) : Token × Nat :=
  let i := identLen text
  let value := String.mk (text.take i)
  let tokenType := if pythonKeywords.contains value then
    TokenType.KEYWORD else TokenType.IDENTIFIER
  (⟨tokenType, value, line, column⟩, i)

/-- Lexer.go `processSymbol`: two-character symbols are tried first,
then one-character symbols, otherwise an Error token for the single
character.  (The empty-text case cannot be reached from `processLine`.) -/
def processSymbol (text : List Char) (line column : Nat) : Token × Nat :=
  match text with
  | [] => (⟨.ERROR, "", line, column⟩, 1)
  | [c1] =>
    let oneChar := String.mk [c1]
    if pythonSymbols.contains oneChar then (⟨.SYMBOL, oneChar, line, column⟩, 1)
    else (⟨.ERROR, oneChar, line, column⟩, 1)
  | c1 :: c2 :: _ =>
    let twoChar := String.mk [c1, c2]
    if pythonSymbols.contains twoChar then (⟨.SYMBOL, twoChar, line, column⟩, 2)
    else
      let oneChar := String.mk [c1]
      if pythonSymbols.contains oneChar then
        (⟨.SYMBOL, oneChar, line, column⟩, 1)
      else (⟨.ERROR, oneChar, line, column⟩, 1)

/-- Lexer.go `addToken`: record the token, fold it into the category
table and bump the per-category counter. -/
def addToken (r : LexicalResult) (token : Token) : LexicalResult :=
  let r := { r with tokens := r.tokens ++ [token] }
  match token.type with
  | .KEYWORD =>
    { r with tablePR := r.tablePR ++ [token.value],
             statistics := { r.statistics with
               keywords := r.statistics.keywords + 1 } }
  | .IDENTIFIER =>
    { r with tableID := r.tableID ++ [token.value],
             statistics := { r.statistics with
               identifiers := r.statistics.identifiers + 1 } }
  | .NUMBER =>
    { r with tableNumeros := r.tableNumeros ++ [token.value],
             statistics := { r.statistics with
               numbers := r.statistics.numbers + 1 } }
  | .STRING =>
    { r with statistics := { r.statistics with
               strings := r.statistics.strings + 1 } }
  | .SYMBOL =>
    { r with tableSimbolos := r.tableSimbolos ++ [token.value],
             statistics := { r.statistics with
               symbols := r.statistics.symbols + 1 } }
  | .ERROR =>
    { r with tableError := r.tableError ++ [token.value],
             statistics := { r.statistics with
               errors := r.statistics.errors + 1 } }
  | _ => r

/-- The diagnostic string appended for an unrecognized character. -/
def unrecognizedMsg (c : Char) (lineNum column : Nat) : String :=
  "Carácter no reconocido " ++ quoted (String.mk [c]) ++ " en línea " ++
    toString lineNum ++ ", columna " ++ toString column

theorem processString_len_pos (c : Char) (rest : List Char)
    (line column : Nat) (quote : Char) :
    1 ≤ (processString (c :: rest) line column quote).2 := by
  unfold processString
  cases stringEnd quote ((c :: rest).drop 1) <;> simp

theorem numLen_pos (c : Char) (rest : List Char) (h : goIsDigit c = true) :
    1 ≤ numLen (c :: rest) false := by
  unfold numLen
  simp [h]
  split <;> omega

theorem processNumber_len_pos (c : Char) (rest : List Char)
    (line column : Nat) (h : goIsDigit c = true) :
    1 ≤ (processNumber (c :: rest) line column).2 :=
  numLen_pos c rest h

theorem identLen_pos (c : Char) (rest : List Char)
    (h : goIsLetter c || c = '_') :
    1 ≤ identLen (c :: rest) := by
  unfold identLen
  rcases Bool.or_eq_true_iff.mp h with h1 | h1 <;> simp [h1]

theorem processIdentifier_len_pos (c : Char) (rest : List Char)
    (line column : Nat) (h : goIsLetter c || c = '_') :
    1 ≤ (processIdentifier (c :: rest) line column).2 :=
  identLen_pos c rest h

theorem processSymbol_len_pos (text : List Char) (line column : Nat) :
    1 ≤ (processSymbol text line column).2 := by
  unfold processSymbol
  match text with
  | [] => simp
  | [c1] => dsimp only; split <;> simp
  | c1 :: c2 :: rest => dsimp only; split <;> [simp; (split <;> simp)]

/-- Lexer.go `processLine`: the per-line scanning loop.  The Go index
`i` is represented by the position in the list; the column counter moves
in lock-step with it. -/
def processLine (r : LexicalResult) (line : List Char)
    (lineNum column : Nat) : LexicalResult :=
  match line with
  | [] => r
  | c :: rest =>
    if goIsSpace c then processLine r rest lineNum (column + 1)
    else if c = '#' then r
    else if c = dqChar || c = sqChar then
      let tl := processString (c :: rest) lineNum column c
      processLine (addToken r tl.1) ((c :: rest).drop tl.2) lineNum
        (column + tl.2)
    else if goIsDigit c then
      let tl := processNumber (c :: rest) lineNum column
      processLine (addToken r tl.1) ((c :: rest).drop tl.2) lineNum
        (column + tl.2)
    else if goIsLetter c || c = '_' then
      let tl := processIdentifier (c :: rest) lineNum column
      processLine (addToken r tl.1) ((c :: rest).drop tl.2) lineNum
        (column + tl.2)
    else
      let tl := processSymbol (c :: rest) lineNum column
      let r1 := if tl.1.type = .ERROR then
        { r with errors := r.errors ++ [unrecognizedMsg c lineNum column] }
        else r
      processLine (addToken r1 tl.1) ((c :: rest).drop tl.2) lineNum
        (column + tl.2)
termination_by line.length
decreasing_by
  · simp
  · simp only [List.length_drop, List.length_cons]
    apply Nat.sub_lt (by omega)
    exact processString_len_pos _ _ _ _ _
  · simp only [List.length_drop, List.length_cons]
    apply Nat.sub_lt (by omega)
    exact processNumber_len_pos _ _ _ _ (by assumption)
  · simp only [List.length_drop, List.length_cons]
    apply Nat.sub_lt (by omega)
    exact processIdentifier_len_pos _ _ _ _ (by assumption)
  · simp only [List.length_drop, List.length_cons]
    apply Nat.sub_lt (by omega)
    exact processSymbol_len_pos _ _ _

/-- The loop over lines in Lexer.go `Analyze` (line numbers 1-based,
column reset to 1 per line). -/
def processLines (r : LexicalResult) : List (List Char) → Nat → LexicalResult
  | [], _ => r
  | l :: ls, n => processLines (processLine r l n 1) ls (n + 1)

/-- The empty `LexicalResult` that Lexer.go `Analyze` starts from. -/
def initLexicalResult : LexicalResult :=
  ⟨[], [], [], [], [], [], ⟨0, 0, 0, 0, 0, 0⟩, [], 0⟩

/-- Lexer.go `Analyze` on pre-split lines. -/
def lexAnalyzeLines (lines : List (List Char)) : LexicalResult :=
  let r := processLines initLexicalResult lines 1
  { r with reservedWords := r.statistics.keywords }

/-- `strings.Split(code, "\n")` on the character list: the list of
lines, without the newline characters; the empty text gives one empty
line. -/
def splitLines : List Char → List (List Char)
  | [] => [[]]
  | c :: rest =>
    if c = '\n' then [] :: splitLines rest
    else
      match splitLines rest with
      | [] => [[c]]
      | l :: ls => (c :: l) :: ls

/-- Lexer.go `Analyze`: split the code on the newline character and
process each line. -/
def lexAnalyze (code : String) : LexicalResult :=
  lexAnalyzeLines (splitLines code.toList)

/-!
## Parser (package parser inside src/semantico/semantic.go's module)

The Go parser mutates a `Parser` struct (tokens, current, errors).  All
parsing functions below are indexed by fuel and return `none` when the
fuel runs out — which, by the divergence theorem for C1, models the
infinite loop the Go code can enter — or when the Go code would
dereference a nil `*ASTNode` (a runtime panic, in the binary-operator
loops).  `Option ASTNode` results model Go's nil-able node pointers.
-/

/-- A syntax-tree node (`parser.ASTNode`); children are nil-able node
pointers. -/
inductive ASTNode where
  | mk (type : String) (value : String) (line : Nat)
       (children : List (Option ASTNode))

/-- Node kind tag. -/
def ASTNode.type : ASTNode → String
  | .mk t _ _ _ => t

/-- Node payload (operator, name or literal text). -/
def ASTNode.value : ASTNode → String
  | .mk _ v _ _ => v

/-- Node line. -/
def ASTNode.line : ASTNode → Nat
  | .mk _ _ l _ => l

/-- Node children. -/
def ASTNode.children : ASTNode → List (Option ASTNode)
  | .mk _ _ _ cs => cs

/-- Parser state (`parser.Parser`); `indent` is declared in the Go
struct but never used. -/
structure PState where
  tokens : List Token
  current : Nat
  errors : List String
  indent : Nat

/-- `filterTokens`: drop whitespace and newline tokens. -/
def filterTokens (tokens : List Token) : List Token :=
  tokens.filter fun t =>
    t.type ≠ TokenType.WHITESPACE && t.type ≠ TokenType.NEWLINE

/-- `isAtEnd`. -/
def pIsAtEnd (p : PState) : Bool := p.tokens.length ≤ p.current

/-- `peek`: current token, or the zero token at the end. -/
def peek (p : PState) : Token :=
  if pIsAtEnd p then zeroToken else p.tokens.getD p.current zeroToken

/-- `previous`: last consumed token, or the zero token at position 0. -/
def previous (p : PState) : Token :=
  if p.current = 0 then zeroToken else p.tokens.getD (p.current - 1) zeroToken

/-- `advance`: consume one token (when not at the end) and return it. -/
def advance (p : PState) : Token × PState :=
  if pIsAtEnd p then (previous p, p)
  else
    let p1 := { p with current := p.current + 1 }
    (previous p1, p1)

/-- `check`: does the current token have this value? -/
def check (p : PState) (tokenValue : String) : Bool :=
  if pIsAtEnd p then false else (peek p).value = tokenValue

/-- `checkType`: does the current token have this type? -/
def checkType (p : PState) (tokenType : TokenType) : Bool :=
  if pIsAtEnd p then false else (peek p).type = tokenType

/-- `checkNext`: does the following token have this value? -/
def checkNext (p : PState) (tokenValue : String) : Bool :=
  if p.tokens.length ≤ p.current + 1 then false
  else (p.tokens.getD (p.current + 1) zeroToken).value = tokenValue

/-- `match`: try each candidate value in order, consuming on success. -/
def pmatch (p : PState) : List String → Bool × PState
  | [] => (false, p)
  | t :: ts => if check p t then (true, (advance p).2) else pmatch p ts

/-- `error`: append "Error en línea L: message" using the current
token's line (1 at the end of input). -/
def perror (p : PState) (message : String) : PState :=
  let line := if pIsAtEnd p then 1 else (peek p).line
  { p with errors := p.errors ++
      ["Error en línea " ++ toString line ++ ": " ++ message] }

mutual

/-- `parseProgram`: the top-level statement loop.  A nil statement is
not appended — and, unlike `parseBlock`, the loop does NOT advance past
it. -/
def parseProgram : Nat → PState → Option (ASTNode × PState)
  | 0, _ => none
  | f + 1, p =>
    match progLoop f p [] with
    | none => none
    | some (cs, p1) => some (.mk "Program" "" 1 cs, p1)

/-- The `for !p.isAtEnd()` loop of `parseProgram`. -/
def progLoop : Nat → PState → List (Option ASTNode) →
    Option (List (Option ASTNode) × PState)
  | 0, _, _ => none
  | f + 1, p, acc =>
    if pIsAtEnd p then some (acc, p)
    else
      match parseStatement f p with
      | none => none
      | some (stmt, p1) =>
        match stmt with
        | some s => progLoop f p1 (acc ++ [some s])
        | none => progLoop f p1 acc

/-- `parseStatement`. -/
def parseStatement : Nat → PState → Option (Option ASTNode × PState)
  | 0, _ => none
  | f + 1, p =>
    let m1 := pmatch p ["def"]
    if m1.1 then parseFunctionDef f m1.2
    else
      let m2 := pmatch p ["if"]
      if m2.1 then parseIfStatement f m2.2
      else if check p "print" then parseExpressionStatement f p
      else if checkType p .IDENTIFIER then parseAssignmentOrExpression f p
      else parseExpressionStatement f p

/-- `parseFunctionDef` (the `def` keyword is already consumed). -/
def parseFunctionDef : Nat → PState → Option (Option ASTNode × PState)
  | 0, _ => none
  | f + 1, p =>
    let line := (previous p).line
    if !checkType p .IDENTIFIER then
      some (none, perror p "Se esperaba nombre de función")
    else
      let a1 := advance p
      let name := a1.1.value
      let m1 := pmatch a1.2 ["("]
      if !m1.1 then
        some (none, perror m1.2 ("Se esperaba " ++ quoted "(" ++
          " después del nombre de función"))
      else
        let paramsRes := if check m1.2 ")" then some ([], m1.2)
          else paramLoop f m1.2 []
        match paramsRes with
        | none => none
        | some (params, p2) =>
          let m2 := pmatch p2 [")"]
          if !m2.1 then
            some (none, perror m2.2 ("Se esperaba " ++ quoted ")" ++
              " después de los parámetros"))
          else
            let m3 := pmatch m2.2 [":"]
            if !m3.1 then
              some (none, perror m3.2 ("Se esperaba " ++ quoted ":" ++
                " después de la definición de función"))
            else
              match parseBlock f m3.2 with
              | none => none
              | some (body, p3) =>
                some (some (.mk "FunctionDef" name line
                  (params ++ [some body])), p3)

/-- The parameter-list loop of `parseFunctionDef` (entered only when the
next token is not a closing parenthesis). -/
def paramLoop : Nat → PState → List (Option ASTNode) →
    Option (List (Option ASTNode) × PState)
  | 0, _, _ => none
  | f + 1, p, acc =>
    if !checkType p .IDENTIFIER then
      some (acc, perror p "Se esperaba nombre de parámetro")
    else
      let a := advance p
      let param := ASTNode.mk "Parameter" a.1.value (previous a.2).line []
      let acc1 := acc ++ [some param]
      let m := pmatch a.2 [","]
      if m.1 then paramLoop f m.2 acc1 else some (acc1, m.2)

/-- `parseIfStatement` (the `if` keyword is already consumed). -/
def parseIfStatement : Nat → PState → Option (Option ASTNode × PState)
  | 0, _ => none
  | f + 1, p =>
    let line := (previous p).line
    match parseExpression f p with
    | none => none
    | some (condition, p1) =>
      match condition with
      | none => some (none, p1)
      | some cond =>
        let m := pmatch p1 [":"]
        if !m.1 then
          some (none, perror m.2 ("Se esperaba " ++ quoted ":" ++
            " después de la condición if"))
        else
          match parseBlock f m.2 with
          | none => none
          | some (thenBranch, p2) =>
            some (some (.mk "IfStatement" "" line
              [some cond, some thenBranch]), p2)

/-- `parseBlock`: always returns a Block node. -/
def parseBlock : Nat → PState → Option (ASTNode × PState)
  | 0, _ => none
  | f + 1, p =>
    let line := (peek p).line
    match blockLoop f p [] with
    | none => none
    | some (cs, p1) => some (.mk "Block" "" line cs, p1)

/-- The statement loop of `parseBlock`: stops when the current or next
token is `def` or `if`; advances one token past a nil statement; breaks
when fewer than two tokens remain. -/
def blockLoop : Nat → PState → List (Option ASTNode) →
    Option (List (Option ASTNode) × PState)
  | 0, _, _ => none
  | f + 1, p, acc =>
    if !pIsAtEnd p && !check p "def" && !check p "if" &&
        !checkNext p "def" && !checkNext p "if" then
      match parseStatement f p with
      | none => none
      | some (stmt, p1) =>
        let step := match stmt with
          | some s => (acc ++ [some s], p1)
          | none => (acc, (advance p1).2)
        if step.2.tokens.length - 1 ≤ step.2.current then some step
        else blockLoop f step.2 step.1
    else some (acc, p)

/-- `parseAssignmentOrExpression`: one-token lookahead for `=`. -/
def parseAssignmentOrExpression : Nat → PState →
    Option (Option ASTNode × PState)
  | 0, _ => none
  | f + 1, p =>
    if p.current + 1 < p.tokens.length &&
        (p.tokens.getD (p.current + 1) zeroToken).value = "=" then
      parseAssignment f p
    else parseExpressionStatement f p

/-- `parseAssignment`. -/
def parseAssignment : Nat → PState → Option (Option ASTNode × PState)
  | 0, _ => none
  | f + 1, p =>
    let line := (peek p).line
    if !checkType p .IDENTIFIER then
      some (none, perror p "Se esperaba identificador en asignación")
    else
      let a := advance p
      let name := a.1.value
      let m := pmatch a.2 ["="]
      if !m.1 then
        some (none, perror m.2 ("Se esperaba " ++ quoted "=" ++
          " en asignación"))
      else
        match parseExpression f m.2 with
        | none => none
        | some (value, p1) =>
          match value with
          | none => some (none, p1)
          | some v => some (some (.mk "Assignment" name line [some v]), p1)

/-- `parseExpressionStatement`. -/
def parseExpressionStatement : Nat → PState →
    Option (Option ASTNode × PState)
  | 0, _ => none
  | f + 1, p =>
    match parseExpression f p with
    | none => none
    | some (expr, p1) =>
      match expr with
      | none => some (none, p1)
      | some e =>
        some (some (.mk "ExpressionStatement" "" e.line [some e]), p1)

/-- `parseExpression`. -/
def parseExpression : Nat → PState → Option (Option ASTNode × PState)
  | 0, _ => none
  | f + 1, p => parseComparison f p

/-- `parseComparison`. -/
def parseComparison : Nat → PState → Option (Option ASTNode × PState)
  | 0, _ => none
  | f + 1, p =>
    match parseTerm f p with
    | none => none
    | some (expr, p1) => cmpLoop f expr p1

/-- The comparison-operator loop.  When the accumulated left expression
is nil the Go code dereferences it (`expr.Line`) and panics: modelled by
`none`. -/
def cmpLoop : Nat → Option ASTNode → PState →
    Option (Option ASTNode × PState)
  | 0, _, _ => none
  | f + 1, expr, p =>
    let m := pmatch p [">", "<", ">=", "<=", "==", "!="]
    if m.1 then
      let operator := (previous m.2).value
      match parseTerm f m.2 with
      | none => none
      | some (right, p1) =>
        match expr with
        | none => none
        | some e =>
          cmpLoop f (some (.mk "BinaryOp" operator e.line [some e, right])) p1
    else some (expr, p)

/-- `parseTerm`. -/
def parseTerm : Nat → PState → Option (Option ASTNode × PState)
  | 0, _ => none
  | f + 1, p =>
    match parseFactor f p with
    | none => none
    | some (expr, p1) => termLoop f expr p1

/-- The additive-operator loop; same nil-dereference caveat as
`cmpLoop`. -/
def termLoop : Nat → Option ASTNode → PState →
    Option (Option ASTNode × PState)
  | 0, _, _ => none
  | f + 1, expr, p =>
    let m := pmatch p ["+", "-"]
    if m.1 then
      let operator := (previous m.2).value
      match parseFactor f m.2 with
      | none => none
      | some (right, p1) =>
        match expr with
        | none => none
        | some e =>
          termLoop f (some (.mk "BinaryOp" operator e.line [some e, right])) p1
    else some (expr, p)

/-- `parseFactor`: parentheses, literals, identifiers, calls and method
calls.  A method access without an argument list falls through to the
plain Identifier return, exactly as in the Go code. -/
def parseFactor : Nat → PState → Option (Option ASTNode × PState)
  | 0, _ => none
  | f + 1, p =>
    let mp := pmatch p ["("]
    if mp.1 then
      match parseExpression f mp.2 with
      | none => none
      | some (expr, p1) =>
        let m2 := pmatch p1 [")"]
        if m2.1 then some (expr, m2.2)
        else some (expr, perror m2.2 ("Se esperaba " ++ quoted ")" ++
          " después de la expresión"))
    else if checkType p .NUMBER then
      let a := advance p
      some (some (.mk "Number" a.1.value (previous a.2).line []), a.2)
    else if checkType p .STRING then
      let a := advance p
      some (some (.mk "String" a.1.value (previous a.2).line []), a.2)
    else if checkType p .IDENTIFIER then
      let a := advance p
      let name := a.1.value
      let mc := pmatch a.2 ["("]
      if mc.1 then
        let argsRes := if check mc.2 ")" then some ([], mc.2)
          else argsLoop f mc.2 []
        match argsRes with
        | none => none
        | some (args, p2) =>
          let m3 := pmatch p2 [")"]
          let p3 := if m3.1 then m3.2
            else perror m3.2 ("Se esperaba " ++ quoted ")" ++
              " después de los argumentos")
          some (some (.mk "FunctionCall" name (previous p3).line args), p3)
      else
        let md := pmatch a.2 ["."]
        if md.1 then
          if !checkType md.2 .IDENTIFIER then
            some (none, perror md.2 ("Se esperaba nombre de método después de "
              ++ quoted "."))
          else
            let a2 := advance md.2
            let method := a2.1.value
            let mo := pmatch a2.2 ["("]
            if mo.1 then
              let argsRes := if check mo.2 ")" then some ([], mo.2)
                else argsLoop f mo.2 []
              match argsRes with
              | none => none
              | some (args, p2) =>
                let m3 := pmatch p2 [")"]
                let p3 := if m3.1 then m3.2
                  else perror m3.2 ("Se esperaba " ++ quoted ")" ++
                    " después de los argumentos del método")
                some (some (.mk "MethodCall" (name ++ "." ++ method)
                  (previous p3).line args), p3)
            else
              some (some (.mk "Identifier" name (previous a2.2).line []), a2.2)
        else
          some (some (.mk "Identifier" name (previous a.2).line []), a.2)
    else some (none, perror p "Se esperaba expresión")

/-- The argument-list loop shared by call and method-call parsing
(entered only when the next token is not a closing parenthesis); nil
arguments are dropped. -/
def argsLoop : Nat → PState → List (Option ASTNode) →
    Option (List (Option ASTNode) × PState)
  | 0, _, _ => none
  | f + 1, p, acc =>
    match parseExpression f p with
    | none => none
    | some (arg, p1) =>
      let acc1 := match arg with
        | some a => acc ++ [some a]
        | none => acc
      let m := pmatch p1 [","]
      if m.1 then argsLoop f m.2 acc1 else some (acc1, m.2)

end

/-- Result of the syntactic stage (`parser.SyntaxResult`). -/
structure SyntaxResult where
  ast : Option ASTNode
  errors : List String
  success : Bool
  errorLine : Nat

/-- Fold a digit string into a number, as `fmt.Sscanf`'s `%d` does;
an empty digit run leaves the scanned variable at zero. -/
def digitsToNat (ds : List Char) : Nat :=
  ds.foldl (fun a c => a * 10 + (c.toNat - 48)) 0

/-- Substring test (`strings.Contains`) on character lists. -/
def containsCL (needle : List Char) : List Char → Bool
  | [] => needle.isEmpty
  | c :: rest => needle.isPrefixOf (c :: rest) || containsCL needle rest

/-- `strings.Contains` on strings. -/
def strContains (s sub : String) : Bool := containsCL sub.toList s.toList

/-- `getErrorLine`: the line number scanned out of the first syntax
error message, 0 when there is none. -/
def getErrorLine (errors : List String) : Nat :=
  match errors with
  | [] => 0
  | e :: _ =>
    if strContains e "línea " then
      let pre := "Error en línea ".toList
      let cs := e.toList
      if pre.isPrefixOf cs then
        digitsToNat ((cs.drop pre.length).takeWhile Char.isDigit)
      else 0
    else 0

/-- `parser.Analyze`: filter the tokens, run `parseProgram` and bundle
the result. -/
def parserAnalyze (fuel : Nat) (tokens : List Token) : Option SyntaxResult :=
  let filteredTokens := filterTokens tokens
  let p0 : PState := ⟨filteredTokens, 0, [], 0⟩
  match parseProgram fuel p0 with
  | none => none
  | some (ast, p1) =>
    some ⟨some ast, p1.errors, p1.errors.isEmpty, getErrorLine p1.errors⟩

/-!
## Semantic checker (package semantico, src/semantico/semantic.go)
-/

/-- Variable types (`semantico.VarType`). -/
inductive VarType where
  | IntType
  | StringType
  | BoolType
  | UnknownType
deriving DecidableEq, Repr

/-- A table entry (`semantico.Variable`). -/
structure Variable where
  name : String
  type : VarType
  line : Nat
deriving DecidableEq, Repr

/-- The analyzer state (`semantico.SemanticAnalyzer`): the flat variable
table modelled as a lookup function, and the diagnostic list.  (The Go
struct also stores the token slice, which is never read.) -/
structure SState where
  vars : String → Option Variable
  errors : List String

/-- The message template of `semantico.addError`. -/
def semanticErrMsg (line : Nat) (message : String) : String :=
  "Error semántico en línea " ++ toString line ++ ": " ++ message

/-- `addError`: append a formatted semantic diagnostic. -/
def addSemErr (st : SState) (line : Nat) (message : String) : SState :=
  { st with errors := st.errors ++ [semanticErrMsg line message] }

/-- `strings.Split(s, ".")` on character lists. -/
def splitDot : List Char → List (List Char)
  | [] => [[]]
  | c :: rest =>
    if c = '.' then [] :: splitDot rest
    else
      match splitDot rest with
      | [] => [[c]]
      | p :: ps => (c :: p) :: ps

/-- `inferType`: the type-inference rules, reading the variable table. -/
def inferType (varTable : String → Option Variable) : Option ASTNode → VarType
  | none => .UnknownType
  | some (.mk t v _ cs) =>
    if t = "Number" then .IntType
    else if t = "String" then .StringType
    else if t = "Identifier" then
      match varTable v with
      | some vbl => vbl.type
      | none => .UnknownType
    else if t = "BinaryOp" then
      if v = ">" || v = "<" || v = ">=" || v = "<=" || v = "==" || v = "!="
      then .BoolType
      else
        match cs with
        | l :: r :: _ =>
          let leftType : VarType := inferType varTable l
          let rightType : VarType := inferType varTable r
          if leftType = .IntType ∧ rightType = .IntType then .IntType
          else if leftType = .StringType ∨ rightType = .StringType then
            .StringType
          else .UnknownType
        | _ => .UnknownType
    else if t = "MethodCall" then
      if strContains v ".lower" then .StringType else .UnknownType
    else .UnknownType
termination_by n => sizeOf n

mutual

/-- `analyzeNode`: dispatch on the node kind; unhandled kinds recurse
into the children. -/
def analyzeNode (st : SState) : Option ASTNode → SState
  | none => st
  | some (.mk t v ln cs) =>
    if t = "Program" then analyzeNodes st cs
    else if t = "FunctionDef" then analyzeNodes st cs
    else if t = "Assignment" then analyzeAssignment st (.mk t v ln cs)
    else if t = "IfStatement" then analyzeIfStatement st (.mk t v ln cs)
    else if t = "Block" then analyzeNodes st cs
    else if t = "ExpressionStatement" then analyzeNodes st cs
    else if t = "BinaryOp" then analyzeBinaryOperation st (.mk t v ln cs)
    else if t = "FunctionCall" || t = "MethodCall" then
      analyzeFunctionCall st (.mk t v ln cs)
    else analyzeNodes st cs
termination_by n => (sizeOf n, 1)

/-- The `for _, child := range node.Children` loops. -/
def analyzeNodes (st : SState) : List (Option ASTNode) → SState
  | [] => st
  | c :: cs => analyzeNodes (analyzeNode st c) cs
termination_by cs => (sizeOf cs, 0)

/-- `analyzeAssignment`: infer the value type and overwrite the table
entry (last write wins), then analyze the value. -/
def analyzeAssignment (st : SState) : ASTNode → SState
  | .mk _ _ ln [] => addSemErr st ln "Asignación sin valor"
  | .mk _ v ln (valueNode :: _) =>
    let varType := inferType st.vars valueNode
    let st1 : SState :=
      ⟨fun m => if m = v then some ⟨v, varType, ln⟩ else st.vars m,
       st.errors⟩
    analyzeNode st1 valueNode
termination_by n => (sizeOf n, 0)

/-- `analyzeIfStatement`: analyze the condition child, then all
children again in the general loop. -/
def analyzeIfStatement (st : SState) : ASTNode → SState
  | .mk _ _ ln [] => addSemErr st ln "Declaración if sin condición"
  | .mk _ _ _ (condition :: rest) =>
    let st1 := analyzeCondition st condition
    analyzeNodes st1 (condition :: rest)
termination_by n => (sizeOf n, 0)

/-- `analyzeCondition`. -/
def analyzeCondition (st : SState) : Option ASTNode → SState
  | none => st
  | some n =>
    if n.type = "BinaryOp" then analyzeBinaryOperation st n
    else analyzeNode st (some n)
termination_by n => (sizeOf n, 2)

/-- `analyzeBinaryOperation`: operator/operand compatibility checks,
then recursive analysis of both operands. -/
def analyzeBinaryOperation (st : SState) : ASTNode → SState
  | .mk _ operator ln (leftNode :: rightNode :: _) =>
    let leftType : VarType := inferType st.vars leftNode
    let rightType : VarType := inferType st.vars rightNode
    let st1 :=
      if operator = ">" || operator = "<" || operator = ">=" ||
          operator = "<=" then
        if leftType = .StringType ∧ rightType = .IntType then
          addSemErr st ln ("No se puede comparar string con número usando "
            ++ quoted operator)
        else if leftType = .IntType ∧ rightType = .StringType then
          addSemErr st ln ("No se puede comparar número con string usando "
            ++ quoted operator)
        else st
      else if operator = "==" || operator = "!=" then
        if leftType = .StringType ∧ rightType = .IntType then
          addSemErr st ln "Comparación entre tipos incompatibles: string y número"
        else if leftType = .IntType ∧ rightType = .StringType then
          addSemErr st ln "Comparación entre tipos incompatibles: número y string"
        else st
      else if operator = "+" || operator = "-" || operator = "*" ||
          operator = "/" then
        if (leftType = .StringType ∨ rightType = .StringType) ∧
            operator ≠ "+" then
          addSemErr st ln ("Operador " ++ quoted operator ++
            " no válido para strings")
        else st
      else st
    let st2 := analyzeNode st1 leftNode
    analyzeNode st2 rightNode
  | .mk _ _ ln _ => addSemErr st ln "Operación binaria incompleta"
termination_by n => (sizeOf n, 0)

/-- `analyzeFunctionCall`: dotted names are validated against the
variable table (`lower` on non-String types only); `print` analyzes its
arguments; all children are analyzed once more afterwards. -/
def analyzeFunctionCall (st : SState) : ASTNode → SState
  | .mk _ funcName ln cs =>
    let st1 :=
      if strContains funcName "." then
        match splitDot funcName.toList with
        | [o, m] =>
          let objectName := String.mk o
          let methodName := String.mk m
          match st.vars objectName with
          | some vbl =>
            if vbl.type = .StringType ∧ methodName = "lower" then st
            else if vbl.type ≠ .StringType ∧ methodName = "lower" then
              addSemErr st ln ("El método " ++ quoted "lower()" ++
                " no está disponible para el tipo de " ++ quoted objectName)
            else st
          | none =>
            addSemErr st ln ("Variable " ++ quoted objectName ++
              " no está definida")
        | _ => st
      else if funcName = "print" then analyzeNodes st cs
      else st
    analyzeNodes st1 cs
termination_by n => (sizeOf n, 0)

end

/-- Result of the semantic stage (`semantico.SemanticResult`). -/
structure SemanticResult where
  errors : List String
  vars : String → Option Variable
  typeMismatches : List String
  success : Bool

/-- `getTypeMismatches`: the string-matching post-filter over the
diagnostic list. -/
def getTypeMismatches (errors : List String) : List String :=
  errors.filter fun e =>
    strContains e "comparar" || strContains e "Comparación"

/-- `semantico.Analyze` (the token slice is stored by the Go analyzer
but never read). -/
def semAnalyze (_tokens : List Token) (ast : Option ASTNode) :
    SemanticResult :=
  let st0 : SState := ⟨fun _ => none, []⟩
  let st := analyzeNode st0 ast
  ⟨st.errors, st.vars, getTypeMismatches st.errors, st.errors.isEmpty⟩

/-!
## Top-level handler composition (main.go `analyzeCode`)
-/

/-- The whole response record assembled by the handler. -/
structure AnalysisResponse where
  lexicalAnalysis : LexicalResult
  syntaxAnalysis : SyntaxResult
  semanticAnalysis : SemanticResult
  success : Bool
  error : String

/-- Go's `%v` rendering of a string slice. -/
def goFmtStrSlice (xs : List String) : String :=
  "[" ++ String.intercalate " " xs ++ "]"

/-- main.go `analyzeCode`: the three stages in sequence; the top-level
success flag is (no syntax errors) AND (no semantic errors).  `none`
models a request on which the Go parser never returns (or panics). -/
def analyzeCode (fuel : Nat) (code : String) : Option AnalysisResponse :=
  let lexicalResult := lexAnalyze code
  match parserAnalyze fuel lexicalResult.tokens with
  | none => none
  | some syntaxResult =>
    let semanticResult := semAnalyze lexicalResult.tokens syntaxResult.ast
    some {
      lexicalAnalysis := lexicalResult
      syntaxAnalysis := syntaxResult
      semanticAnalysis := semanticResult
      success := syntaxResult.errors.isEmpty && semanticResult.errors.isEmpty
      error :=
        if !syntaxResult.errors.isEmpty then
          "Errores de sintaxis: " ++ goFmtStrSlice syntaxResult.errors
        else if !semanticResult.errors.isEmpty then
          "Errores semánticos: " ++ goFmtStrSlice semanticResult.errors
        else "" }

/-!
## Helper lemmas
-/

theorem addToken_tokens (r : LexicalResult) (t : Token) :
    (addToken r t).tokens = r.tokens ++ [t] := by
  rcases t with ⟨ty, v, l, c⟩
  cases ty <;> rfl

theorem addToken_errors (r : LexicalResult) (t : Token) :
    (addToken r t).errors = r.errors := by
  rcases t with ⟨ty, v, l, c⟩
  cases ty <;> rfl

/-!
## Claim inputs
-/

/-- The C1 failing input: a bare `print` call at top level. -/
def inputC1 : String := "print(1)"

/-- The C2 input from the spec. -/
def inputC2 : String := "1.2.3"

/-- The C5 input: `x = 5` then `x = 'a'`. -/
def inputC5 : String := "x = 5\n" ++ "x = " ++ sqStr ++ "a" ++ sqStr

/-- The C7 input from the spec. -/
def inputC7 : String := "if x > 1:\n  y = 1\ndef f():\n  pass"

/-!
## Claim C2
-/

/-- C2 counterexample: on input `1.2.3` the scanner emits NO Error token
at all — the re-scanned dot does not fail symbol matching, because `.`
is in the symbol list. -/
theorem C2_counterexample :
    ((lexAnalyze inputC2).tokens.any fun t =>
      decide (t.type = TokenType.ERROR)) = false := by
  simp +decide [inputC2, lexAnalyze, lexAnalyzeLines, processLines,
    processLine, initLexicalResult, goIsSpace, goIsDigit, goIsLetter,
    processNumber, processSymbol, processString, processIdentifier, numLen,
    identLen, stringEnd, addToken, pythonSymbols, pythonKeywords, splitLines,
    sqChar, dqChar, bsChar]

/-- C2 amended: the number token ends before the second dot, and the
re-scanned dot matches the one-character symbol `.` and yields a Symbol
token: `1.2.3` lexes as Number `1.2`, Symbol `.`, Number `3`, with no
lexical diagnostic. -/
theorem C2_amended :
    (lexAnalyze inputC2).tokens =
      [⟨.NUMBER, "1.2", 1, 1⟩, ⟨.SYMBOL, ".", 1, 4⟩, ⟨.NUMBER, "3", 1, 5⟩] ∧
    (lexAnalyze inputC2).errors = [] := by
  constructor <;>
  simp +decide [inputC2, lexAnalyze, lexAnalyzeLines, processLines,
    processLine, initLexicalResult, goIsSpace, goIsDigit, goIsLetter,
    processNumber, processSymbol, processString, processIdentifier, numLen,
    identLen, stringEnd, addToken, pythonSymbols, pythonKeywords, splitLines,
    sqChar, dqChar, bsChar]

/-!
## Claim C5
-/

/-- C5: after `x = 5` and `x = 'a'` the table holds `x : String` from
line 2 (last write wins), and no lexical, syntax or semantic diagnostic
is produced. -/
theorem C5_last_write_wins :
    ((analyzeCode 100 inputC5).map fun r =>
      (r.semanticAnalysis.vars "x", r.semanticAnalysis.errors,
       r.syntaxAnalysis.errors, r.lexicalAnalysis.errors, r.success)) =
    some (some ⟨"x", .StringType, 2⟩, [], [], [], true) := by
  simp +decide [analyzeCode, inputC5, lexAnalyze, lexAnalyzeLines,
    processLines, processLine, initLexicalResult, goIsSpace, goIsDigit,
    goIsLetter, processNumber, processSymbol, processString,
    processIdentifier, numLen, identLen, stringEnd, addToken, pythonSymbols,
    pythonKeywords, splitLines, sqChar, dqChar, bsChar, sqStr, parserAnalyze,
    filterTokens, parseProgram, progLoop, parseStatement, parseFunctionDef,
    paramLoop, parseIfStatement, parseBlock, blockLoop,
    parseAssignmentOrExpression, parseAssignment, parseExpressionStatement,
    parseExpression, parseComparison, cmpLoop, parseTerm, termLoop,
    parseFactor, argsLoop, pmatch, check, checkType, checkNext, advance,
    peek, previous, perror, pIsAtEnd, zeroToken, getErrorLine, strContains,
    containsCL, digitsToNat, semAnalyze, analyzeNode, analyzeNodes,
    analyzeAssignment, analyzeIfStatement, analyzeCondition,
    analyzeBinaryOperation, analyzeFunctionCall, inferType, addSemErr,
    semanticErrMsg, splitDot, getTypeMismatches, quoted, goFmtStrSlice,
    ASTNode.type, ASTNode.value, ASTNode.line, ASTNode.children]

/-!
## Claim C7
-/

/-- The syntax tree the parser must produce for `inputC7`. -/
def astC7 : ASTNode :=
  .mk "Program" "" 1
    [some (.mk "IfStatement" "" 1
      [some (.mk "BinaryOp" ">" 1
        [some (.mk "Identifier" "x" 1 []), some (.mk "Number" "1" 1 [])]),
       some (.mk "Block" "" 2
        [some (.mk "Assignment" "y" 2 [some (.mk "Number" "1" 2 [])])])]),
     some (.mk "FunctionDef" "f" 3 [some (.mk "Block" "" 4 [])])]

/-- C7: on `if x > 1:\n  y = 1\ndef f():\n  pass` the if-block contains
only the assignment `y = 1`, and the `def` becomes a sibling statement
of the if-statement (keyword lookahead, not indentation). -/
theorem C7_block_termination :
    ((analyzeCode 100 inputC7).map fun r => r.syntaxAnalysis.ast) =
      some (some astC7) := by
  simp +decide [analyzeCode, inputC7, astC7, lexAnalyze, lexAnalyzeLines,
    processLines, processLine, initLexicalResult, goIsSpace, goIsDigit,
    goIsLetter, processNumber, processSymbol, processString,
    processIdentifier, numLen, identLen, stringEnd, addToken, pythonSymbols,
    pythonKeywords, splitLines, sqChar, dqChar, bsChar, sqStr, parserAnalyze,
    filterTokens, parseProgram, progLoop, parseStatement, parseFunctionDef,
    paramLoop, parseIfStatement, parseBlock, blockLoop,
    parseAssignmentOrExpression, parseAssignment, parseExpressionStatement,
    parseExpression, parseComparison, cmpLoop, parseTerm, termLoop,
    parseFactor, argsLoop, pmatch, check, checkType, checkNext, advance,
    peek, previous, perror, pIsAtEnd, zeroToken, getErrorLine, strContains,
    containsCL, digitsToNat, quoted]

/-!
## Claim C3
-/

/-- A default response record (for `Option.getD` in the witness). -/
def dfltResponse : AnalysisResponse :=
  ⟨initLexicalResult, ⟨none, [], true, 0⟩, ⟨[], fun _ => none, [], true⟩,
   true, ""⟩

/-- C3: whenever the pipeline produces a response, its top-level success
flag equals (syntax error list empty) AND (semantic error list empty);
the lexical error list plays no part in it. -/
theorem C3_success_flag (fuel : Nat) (code : String)
    (resp : AnalysisResponse) (h : analyzeCode fuel code = some resp) :
    resp.success = (resp.syntaxAnalysis.errors.isEmpty &&
      resp.semanticAnalysis.errors.isEmpty) := by
  unfold analyzeCode at h
  simp only [] at h
  cases hp : parserAnalyze fuel (lexAnalyze code).tokens with
  | none => rw [hp] at h; exact absurd h (by simp)
  | some syn =>
    rw [hp] at h
    simp only [Option.some.injEq] at h
    subst h
    rfl

/-- C3 witness: a run that completes, with the flag equation evaluated. -/
theorem C3_success_flag_witness :
    ((analyzeCode 100 "x = 1").getD dfltResponse).success =
      (((analyzeCode 100 "x = 1").getD dfltResponse).syntaxAnalysis.errors.isEmpty &&
       ((analyzeCode 100 "x = 1").getD dfltResponse).semanticAnalysis.errors.isEmpty) :=
  C3_success_flag 100 "x = 1" _ (by
    simp +decide [analyzeCode, lexAnalyze, lexAnalyzeLines, processLines,
      processLine, initLexicalResult, goIsSpace, goIsDigit, goIsLetter,
      processNumber, processSymbol, processString, processIdentifier, numLen,
      identLen, stringEnd, addToken, pythonSymbols, pythonKeywords,
      splitLines, sqChar, dqChar, bsChar, sqStr, parserAnalyze, filterTokens,
      parseProgram, progLoop, parseStatement, parseFunctionDef, paramLoop,
      parseIfStatement, parseBlock, blockLoop, parseAssignmentOrExpression,
      parseAssignment, parseExpressionStatement, parseExpression,
      parseComparison, cmpLoop, parseTerm, termLoop, parseFactor, argsLoop,
      pmatch, check, checkType, checkNext, advance, peek, previous, perror,
      pIsAtEnd, zeroToken, getErrorLine, strContains, containsCL,
      digitsToNat, semAnalyze, analyzeNode, analyzeNodes, analyzeAssignment,
      analyzeIfStatement, analyzeCondition, analyzeBinaryOperation,
      analyzeFunctionCall, inferType, addSemErr, semanticErrMsg, splitDot,
      getTypeMismatches, quoted, goFmtStrSlice])

/-!
## Claim C4
-/

/-- C4: for a call node whose dotted name splits into object and method,
an undefined object yields the "no está definida" diagnostic; a defined
object yields a diagnostic naming it exactly when the method is `lower`
and the object's type is not String; everything else passes silently.
The variable table is untouched. -/
theorem C4_method_validation (vars : String → Option Variable)
    (errs : List String) (fname : String) (o m : List Char) (ln : Nat)
    (hc : strContains fname "." = true)
    (hs : splitDot fname.toList = [o, m]) :
    analyzeNode ⟨vars, errs⟩ (some (.mk "MethodCall" fname ln [])) =
      ⟨vars, errs ++
        (match vars (String.mk o) with
         | none => [semanticErrMsg ln ("Variable " ++ quoted (String.mk o) ++
             " no está definida")]
         | some vbl =>
           if String.mk m = "lower" ∧ vbl.type ≠ VarType.StringType then
             [semanticErrMsg ln ("El método " ++ quoted "lower()" ++
               " no está disponible para el tipo de " ++ quoted (String.mk o))]
           else [])⟩ := by
  have hdisp : analyzeNode ⟨vars, errs⟩ (some (.mk "MethodCall" fname ln [])) =
      analyzeFunctionCall ⟨vars, errs⟩ (.mk "MethodCall" fname ln []) := by
    simp +decide [analyzeNode]
  rw [hdisp]
  simp only [analyzeFunctionCall, hc, hs, if_true]
  cases hv : vars (String.mk o) with
  | none => simp [hv, analyzeNodes, addSemErr]
  | some vbl =>
    by_cases hl : String.mk m = "lower"
    · by_cases hstr : vbl.type = VarType.StringType <;>
        simp [hv, hl, hstr, analyzeNodes, addSemErr]
    · simp [hv, hl, analyzeNodes, addSemErr]

/-- A one-entry variable table with `x : Int`, for the C4 witness. -/
def varsC4 : String → Option Variable :=
  fun n => if n = "x" then some ⟨"x", VarType.IntType, 1⟩ else none

/-- C4 witness: `x.lower` with `x : Int` produces exactly the
"lower() not available" diagnostic. -/
theorem C4_method_validation_witness :
    analyzeNode ⟨varsC4, []⟩ (some (.mk "MethodCall" "x.lower" 2 [])) =
      ⟨varsC4, [semanticErrMsg 2 ("El método " ++ quoted "lower()" ++
        " no está disponible para el tipo de " ++ quoted "x")]⟩ := by
  have h := C4_method_validation varsC4 [] "x.lower" "x".toList "lower".toList
    2 (by decide) (by decide)
  simpa [varsC4] using h

/-!
## Claim C10
-/

/-- C10: an if-statement whose condition is a relational comparison with
an Int-typed identifier on the left and a string literal on the right
gets the type-mismatch diagnostic appended TWICE: once from the
dedicated condition analysis and once more when the loop over all
children reaches the condition again. -/
theorem C10_condition_analyzed_twice (vars : String → Option Variable)
    (errs : List String) (op xn sv : String) (ln l1 l2 l3 lb : Nat)
    (vbl : Variable)
    (hop : op = ">" ∨ op = "<" ∨ op = ">=" ∨ op = "<=")
    (hx : vars xn = some vbl) (ht : vbl.type = VarType.IntType) :
    analyzeNode ⟨vars, errs⟩ (some (.mk "IfStatement" "" ln
      [some (.mk "BinaryOp" op l1
        [some (.mk "Identifier" xn l2 []), some (.mk "String" sv l3 [])]),
       some (.mk "Block" "" lb [])])) =
    ⟨vars, errs ++
      [semanticErrMsg l1
        ("No se puede comparar número con string usando " ++ quoted op),
       semanticErrMsg l1
        ("No se puede comparar número con string usando " ++ quoted op)]⟩ := by
  rcases hop with h | h | h | h <;> subst h <;>
    simp +decide [analyzeNode, analyzeIfStatement, analyzeCondition,
      analyzeBinaryOperation, analyzeNodes, inferType, addSemErr, hx, ht,
      ASTNode.type, semanticErrMsg]

/-- C10 witness: `if x > 'a'` with `x : Int` yields the `>` mismatch
diagnostic exactly twice. -/
theorem C10_condition_analyzed_twice_witness :
    analyzeNode
      ⟨fun n => if n = "x" then some ⟨"x", VarType.IntType, 1⟩ else none, []⟩
      (some (.mk "IfStatement" "" 2
        [some (.mk "BinaryOp" ">" 2
          [some (.mk "Identifier" "x" 2 []), some (.mk "String" "a" 2 [])]),
         some (.mk "Block" "" 3 [])])) =
    ⟨fun n => if n = "x" then some ⟨"x", VarType.IntType, 1⟩ else none,
     [semanticErrMsg 2
       ("No se puede comparar número con string usando " ++ quoted ">"),
      semanticErrMsg 2
       ("No se puede comparar número con string usando " ++ quoted ">")]⟩ := by
  have h := C10_condition_analyzed_twice
    (fun n => if n = "x" then some ⟨"x", VarType.IntType, 1⟩ else none)
    [] ">" "x" "a" 2 2 2 2 3 ⟨"x", VarType.IntType, 1⟩
    (Or.inl rfl) (by simp) rfl
  simpa using h

/-!
## Claim C6
-/

/-- C6: when the scanner reaches a quote character and the remainder of
the line has no matching closing quote (per the escape-honoring scan),
it emits a single Error token spanning that whole remainder and appends
nothing to the lexical diagnostic list. -/
theorem C6_unterminated_string_silent (r : LexicalResult) (q : Char)
    (rest : List Char) (lineNum column : Nat)
    (hq : q = dqChar ∨ q = sqChar) (hend : stringEnd q rest = none) :
    (processLine r (q :: rest) lineNum column).tokens =
      r.tokens ++ [⟨.ERROR, String.mk (q :: rest), lineNum, column⟩] ∧
    (processLine r (q :: rest) lineNum column).errors = r.errors := by
  have key : processLine r (q :: rest) lineNum column =
      addToken r ⟨.ERROR, String.mk (q :: rest), lineNum, column⟩ := by
    rcases hq with h | h <;> subst h <;>
    · rw [processLine]
      simp +decide [processString, List.drop_succ_cons, List.drop_zero, hend,
        List.drop_length]
      rw [processLine]
  rw [key, addToken_tokens, addToken_errors]
  exact ⟨rfl, rfl⟩

/-- C6 witness: the line `"abc` (unterminated double quote). -/
theorem C6_unterminated_string_silent_witness :
    (processLine initLexicalResult (dqChar :: "abc".toList) 1 1).tokens =
      [⟨.ERROR, String.mk (dqChar :: "abc".toList), 1, 1⟩] ∧
    (processLine initLexicalResult (dqChar :: "abc".toList) 1 1).errors =
      [] := by
  have h := C6_unterminated_string_silent initLexicalResult dqChar
    "abc".toList 1 1 (Or.inl rfl) (by decide)
  simpa [initLexicalResult] using h

/-!
## Claim C8
-/

/-- Strict token order: later line, or same line and later column. -/
def tokLt (a b : Token) : Prop :=
  a.line < b.line ∨ (a.line = b.line ∧ a.column < b.column)

theorem processString_meta (text : List Char) (n col : Nat) (q : Char) :
    (processString text n col q).1.line = n ∧
    (processString text n col q).1.column = col := by
  unfold processString
  cases stringEnd q (text.drop 1) <;> exact ⟨rfl, rfl⟩

theorem processNumber_meta (text : List Char) (n col : Nat) :
    (processNumber text n col).1.line = n ∧
    (processNumber text n col).1.column = col := ⟨rfl, rfl⟩

theorem processIdentifier_meta (text : List Char) (n col : Nat) :
    (processIdentifier text n col).1.line = n ∧
    (processIdentifier text n col).1.column = col := ⟨rfl, rfl⟩

theorem processSymbol_meta (text : List Char) (n col : Nat) :
    (processSymbol text n col).1.line = n ∧
    (processSymbol text n col).1.column = col := by
  unfold processSymbol
  rcases text with _ | ⟨c1, _ | ⟨c2, rest⟩⟩ <;> dsimp only <;>
    first
    | exact ⟨rfl, rfl⟩
    | (split <;> first | exact ⟨rfl, rfl⟩ | (split <;> exact ⟨rfl, rfl⟩))

/-- One emitted token plus the tokens of the rest of the line preserve
the per-line ordering invariant. -/
theorem tokStep (r r' : LexicalResult) (tok : Token) (rest2 : List Char)
    (n col len : Nat) (hlen : 1 ≤ len)
    (htl : tok.line = n) (htc : tok.column = col)
    (hr : r'.tokens = r.tokens ++ [tok])
    (hP : ∃ new, (processLine r' rest2 n (col + len)).tokens =
        r'.tokens ++ new ∧
      (∀ t ∈ new, t.line = n ∧ col + len ≤ t.column) ∧
      List.Chain' (fun a b : Token => a.column < b.column) new) :
    ∃ new, (processLine r' rest2 n (col + len)).tokens = r.tokens ++ new ∧
      (∀ t ∈ new, t.line = n ∧ col ≤ t.column) ∧
      List.Chain' (fun a b : Token => a.column < b.column) new := by
  obtain ⟨new, h1, h2, h3⟩ := hP
  refine ⟨tok :: new, ?_, ?_, ?_⟩
  · rw [h1, hr]
    simp
  · intro t ht
    rcases List.mem_cons.mp ht with rfl | ht
    · exact ⟨htl, le_of_eq htc.symm⟩
    · refine ⟨(h2 t ht).1, ?_⟩
      have := (h2 t ht).2
      omega
  · rw [List.chain'_cons']
    refine ⟨?_, h3⟩
    intro y hy
    have := (h2 y (List.mem_of_mem_head? hy)).2
    omega

/-- All tokens a line scan emits carry that line number, start at or
after the starting column, and have strictly increasing columns. -/
theorem processLine_tokens (cs : List Char) (r : LexicalResult)
    (n col : Nat) :
    ∃ new, (processLine r cs n col).tokens = r.tokens ++ new ∧
      (∀ t ∈ new, t.line = n ∧ col ≤ t.column) ∧
      List.Chain' (fun a b : Token => a.column < b.column) new := by
  have main : ∀ (len : Nat) (cs : List Char), cs.length ≤ len →
      ∀ (r : LexicalResult) (n col : Nat),
      ∃ new, (processLine r cs n col).tokens = r.tokens ++ new ∧
        (∀ t ∈ new, t.line = n ∧ col ≤ t.column) ∧
        List.Chain' (fun a b : Token => a.column < b.column) new := by
    intro len
    induction len with
    | zero =>
      intro cs hcs r n col
      have : cs = [] := List.length_eq_zero.mp (Nat.le_zero.mp hcs)
      subst this
      exact ⟨[], by rw [processLine]; simp, by simp, by simp⟩
    | succ k ihk =>
      intro cs hcs r n col
      match cs with
      | [] => exact ⟨[], by rw [processLine]; simp, by simp, by simp⟩
      | c :: rest =>
        have hrest : rest.length ≤ k := by
          simp only [List.length_cons] at hcs
          omega
        by_cases hsp : goIsSpace c = true
        · obtain ⟨new, h1, h2, h3⟩ := ihk rest hrest r n (col + 1)
          refine ⟨new, ?_, ?_, h3⟩
          · rw [processLine]
            simp only [hsp, if_true]
            exact h1
          · intro t ht
            refine ⟨(h2 t ht).1, ?_⟩
            have := (h2 t ht).2
            omega
        · by_cases hh : c = '#'
          · refine ⟨[], ?_, by simp, by simp⟩
            rw [processLine]
            simp +decide [hsp, hh]
          · by_cases hq : (c = dqChar || c = sqChar) = true
            · have hpos := processString_len_pos c rest n col c
              have hmeta := processString_meta (c :: rest) n col c
              have hdrop : ((c :: rest).drop
                  (processString (c :: rest) n col c).2).length ≤ k := by
                simp only [List.length_drop, List.length_cons]
                simp only [List.length_cons] at hcs
                omega
              have key : processLine r (c :: rest) n col =
                  processLine (addToken r (processString (c :: rest) n col c).1)
                    ((c :: rest).drop (processString (c :: rest) n col c).2)
                    n (col + (processString (c :: rest) n col c).2) := by
                rw [processLine]
                simp [hsp, hh, hq]
              rw [key]
              exact tokStep r _ _ _ n col _ hpos hmeta.1 hmeta.2
                (addToken_tokens _ _) (ihk _ hdrop _ n _)
            · by_cases hd : goIsDigit c = true
              · have hpos := processNumber_len_pos c rest n col hd
                have hmeta := processNumber_meta (c :: rest) n col
                have hdrop : ((c :: rest).drop
                    (processNumber (c :: rest) n col).2).length ≤ k := by
                  simp only [List.length_drop, List.length_cons]
                  simp only [List.length_cons] at hcs
                  omega
                have key : processLine r (c :: rest) n col =
                    processLine (addToken r (processNumber (c :: rest) n col).1)
                      ((c :: rest).drop (processNumber (c :: rest) n col).2)
                      n (col + (processNumber (c :: rest) n col).2) := by
                  rw [processLine]
                  simp [hsp, hh, hq, hd]
                rw [key]
                exact tokStep r _ _ _ n col _ hpos hmeta.1 hmeta.2
                  (addToken_tokens _ _) (ihk _ hdrop _ n _)
              · by_cases hid : (goIsLetter c || c = '_') = true
                · have hpos := processIdentifier_len_pos c rest n col hid
                  have hmeta := processIdentifier_meta (c :: rest) n col
                  have hdrop : ((c :: rest).drop
                      (processIdentifier (c :: rest) n col).2).length ≤ k := by
                    simp only [List.length_drop, List.length_cons]
                    simp only [List.length_cons] at hcs
                    omega
                  have key : processLine r (c :: rest) n col =
                      processLine
                        (addToken r (processIdentifier (c :: rest) n col).1)
                        ((c :: rest).drop
                          (processIdentifier (c :: rest) n col).2)
                        n (col + (processIdentifier (c :: rest) n col).2) := by
                    rw [processLine]
                    simp [hsp, hh, hq, hd, hid]
                  rw [key]
                  exact tokStep r _ _ _ n col _ hpos hmeta.1 hmeta.2
                    (addToken_tokens _ _) (ihk _ hdrop _ n _)
                · have hpos := processSymbol_len_pos (c :: rest) n col
                  have hmeta := processSymbol_meta (c :: rest) n col
                  have hdrop : ((c :: rest).drop
                      (processSymbol (c :: rest) n col).2).length ≤ k := by
                    simp only [List.length_drop, List.length_cons]
                    simp only [List.length_cons] at hcs
                    omega
                  set r1 := if (processSymbol (c :: rest) n col).1.type =
                      TokenType.ERROR then
                      { r with errors := r.errors ++
                        [unrecognizedMsg c n col] } else r with hr1
                  have hr1tok : r1.tokens = r.tokens := by
                    rw [hr1]
                    split <;> rfl
                  have key : processLine r (c :: rest) n col =
                      processLine
                        (addToken r1 (processSymbol (c :: rest) n col).1)
                        ((c :: rest).drop (processSymbol (c :: rest) n col).2)
                        n (col + (processSymbol (c :: rest) n col).2) := by
                    rw [processLine]
                    simp [hsp, hh, hq, hd, hid, hr1]
                  rw [key]
                  refine tokStep r _ _ _ n col _ hpos hmeta.1 hmeta.2
                    ?_ (ihk _ hdrop _ n _)
                  rw [addToken_tokens, hr1tok]
  exact main cs.length cs le_rfl r n col

/-- Tokens on one line, chained by column, are chained in the full
order. -/
theorem chainColToTokLt (n : Nat) (xs : List Token)
    (hall : ∀ t ∈ xs, t.line = n)
    (hc : List.Chain' (fun a b : Token => a.column < b.column) xs) :
    List.Chain' tokLt xs := by
  induction xs with
  | nil => simp
  | cons a l ih =>
    rw [List.chain'_cons'] at hc ⊢
    refine ⟨?_, ih (fun t ht => hall t (List.mem_cons_of_mem a ht)) hc.2⟩
    intro y hy
    right
    have hy' := List.mem_of_mem_head? hy
    exact ⟨by rw [hall a (List.mem_cons_self a l),
      hall y (List.mem_cons_of_mem a hy')], hc.1 y hy⟩

theorem mem_of_getLastQ {α : Type} {l : List α} {x : α}
    (h : x ∈ l.getLast?) : x ∈ l := by
  obtain ⟨h', rfl⟩ := List.mem_getLast?_eq_getLast h
  exact List.getLast_mem h'

/-- All tokens the line loop emits from line number `n` on carry line
numbers at least `n` and are chained in the token order. -/
theorem processLines_tokens (ls : List (List Char)) (r : LexicalResult)
    (n : Nat) :
    ∃ new, (processLines r ls n).tokens = r.tokens ++ new ∧
      (∀ t ∈ new, n ≤ t.line) ∧ List.Chain' tokLt new := by
  induction ls generalizing r n with
  | nil => exact ⟨[], by simp [processLines], by simp, by simp⟩
  | cons l ls ih =>
    obtain ⟨new1, h1, h2, h3⟩ := processLine_tokens l r n 1
    obtain ⟨new2, g1, g2, g3⟩ := ih (processLine r l n 1) (n + 1)
    refine ⟨new1 ++ new2, ?_, ?_, ?_⟩
    · simp only [processLines]
      rw [g1, h1, List.append_assoc]
    · intro t ht
      rcases List.mem_append.mp ht with ht | ht
      · exact le_of_eq ((h2 t ht).1).symm
      · have := g2 t ht
        omega
    · refine List.Chain'.append
        (chainColToTokLt n new1 (fun t ht => (h2 t ht).1) h3) g3 ?_
      intro x hx y hy
      left
      have hx' := (h2 x (mem_of_getLastQ hx)).1
      have hy' := g2 y (List.mem_of_mem_head? hy)
      omega

/-- C8: for every input text the emitted token sequence is strictly
increasing in (line, column): consecutive tokens are on a later line,
or on the same line with a strictly larger column. -/
theorem C8_token_order (code : String) :
    List.Chain' tokLt (lexAnalyze code).tokens := by
  obtain ⟨new, h1, _, h3⟩ :=
    processLines_tokens (splitLines code.toList) initLexicalResult 1
  have heq : (lexAnalyze code).tokens =
      (processLines initLexicalResult (splitLines code.toList) 1).tokens := rfl
  rw [heq, h1]
  simpa [initLexicalResult] using h3

/-!
## Claim C1

The claim says parsing always terminates because "the caller that
receives a null statement advances exactly one token".  `parseBlock`
does advance (its Go source even carries the comment "Avanza para
evitar ciclo infinito"), but the top-level loop in `parseProgram` does
NOT: on any top-level token that cannot start a statement —
`print(1)` is one, since `print` is lexed as a KEYWORD and
`parseFactor` only accepts IDENTIFIER heads — `parseStatement` returns
a null node without consuming anything and `parseProgram` retries
forever.  The theorems below show the run returns no result for EVERY
amount of fuel.
-/

/-- The token sequence of `print(1)` (also its whitespace-filtered
form). -/
def ts0 : List Token :=
  [⟨.KEYWORD, "print", 1, 1⟩, ⟨.SYMBOL, "(", 1, 6⟩,
   ⟨.NUMBER, "1", 1, 7⟩, ⟨.SYMBOL, ")", 1, 8⟩]

theorem lexC1_tokens : (lexAnalyze inputC1).tokens = ts0 := by
  simp +decide [inputC1, ts0, lexAnalyze, lexAnalyzeLines, processLines,
    processLine, initLexicalResult, goIsSpace, goIsDigit, goIsLetter,
    processNumber, processSymbol, processString, processIdentifier, numLen,
    identLen, stringEnd, addToken, pythonSymbols, pythonKeywords, splitLines,
    sqChar, dqChar, bsChar]

/-- On the `print(1)` tokens, `parseStatement` either runs out of fuel
or returns a null statement with the state position unchanged (only the
diagnostic list grows). -/
theorem parseStatement_stuck (f : Nat) (errs : List String) :
    parseStatement f ⟨ts0, 0, errs, 0⟩ = none ∨
    parseStatement f ⟨ts0, 0, errs, 0⟩ =
      some (none, ⟨ts0, 0,
        errs ++ ["Error en línea " ++ toString 1 ++ ": " ++
          "Se esperaba expresión"], 0⟩) := by
  match f with
  | 0 => exact Or.inl rfl
  | 1 => exact Or.inl rfl
  | 2 => exact Or.inl rfl
  | 3 => exact Or.inl rfl
  | 4 => exact Or.inl rfl
  | 5 => exact Or.inl rfl
  | g + 6 => exact Or.inr rfl

/-- The top-level statement loop never terminates on the `print(1)`
tokens, whatever the fuel. -/
theorem progLoop_diverges (f : Nat) :
    ∀ (errs : List String) (acc : List (Option ASTNode)),
    progLoop f ⟨ts0, 0, errs, 0⟩ acc = none := by
  induction f with
  | zero => intro errs acc; rfl
  | succ g ih =>
    intro errs acc
    have hend : pIsAtEnd ⟨ts0, 0, errs, 0⟩ = false := rfl
    rcases parseStatement_stuck g errs with h | h <;>
    · simp only [progLoop, hend, Bool.false_eq_true, if_false, h]
      try exact ih _ _

theorem parserAnalyze_C1_diverges (fuel : Nat) :
    parserAnalyze fuel ts0 = none := by
  unfold parserAnalyze
  simp only []
  have hfilter : filterTokens ts0 = ts0 := rfl
  rw [hfilter]
  cases fuel with
  | zero => rfl
  | succ g =>
    have h := progLoop_diverges g [] []
    simp only [parseProgram, h]

/-- C1: the pipeline produces NO response on input `print(1)` for any
fuel bound — the Go `parseProgram` loops forever because it does not
advance past a token on which `parseStatement` returns a null node.
This refutes "parsing always completes"; the claim holds only for
`parseBlock`, which does advance one token past a null statement. -/
theorem C1_parser_diverges (fuel : Nat) : analyzeCode fuel inputC1 = none := by
  unfold analyzeCode
  simp only []
  rw [lexC1_tokens]
  have h : parserAnalyze fuel ts0 = none := parserAnalyze_C1_diverges fuel
  rw [h]
